import Mathlib

/-!
Verification development for the zeller-app customer directory core
(`src/store/customerStore.ts` and `src/database/DatabaseService.ts`).

The TypeScript code is shallowly embedded: pure helpers become Lean
functions over `String`/`List Char`, the async actions of the zustand store
become explicit state-passing functions parameterised by an environment
record that fixes the outcome of each I/O call (local SQLite calls and
remote GraphQL calls), and the SQLite table is a list of rows.  JS string
operations (`trim`, `toLowerCase`, `includes`) are modelled over the
character list of a string; the default SQLite BINARY collation for
`ORDER BY name ASC` is modelled as codepoint-lexicographic comparison.
-/

/-- Character class trimmed by JS `String.prototype.trim` (ASCII part). -/
def isSpaceChar (c : Char) : Bool :=
  c == ' ' || c == '\t' || c == '\n' || c == '\r' || c == '\x0b' || c == '\x0c'

/-- Model of JS `s.trim()`: drop leading and trailing whitespace. -/
def trimStr (s : String) : String :=
  ⟨((s.data.dropWhile isSpaceChar).reverse.dropWhile isSpaceChar).reverse⟩

/-- Model of JS `s.toLowerCase()` (ASCII letters). -/
def toLowerStr (s : String) : String :=
  ⟨s.data.map Char.toLower⟩

/-- Model of JS `s.includes(sub)`: `sub` occurs contiguously inside `s`. -/
def strIncludes (s sub : String) : Bool :=
  decide (sub.data <:+: s.data)

/-- Strict codepoint-lexicographic comparison on character lists; this is
the SQLite BINARY collation restricted to strings whose UTF-8 byte order and
codepoint order agree (in particular all ASCII data). -/
def listLtB : List Char → List Char → Bool
  | [], [] => false
  | [], _ :: _ => true
  | _ :: _, [] => false
  | a :: as, b :: bs => if a < b then true else if b < a then false else listLtB as bs

/-- Strict BINARY-collation comparison on strings. -/
def strLtB (a b : String) : Bool :=
  listLtB a.data b.data

/-- Non-strict BINARY-collation comparison on strings. -/
def strLeB (a b : String) : Bool :=
  !(strLtB b a)

/-- The role normalizer of the zustand store (`customerStore.ts`):
trim, lowercase, then an `"admin"` substring test with `"Manager"` default. -/
def normalizeRole (role : String) : String :=
  if strIncludes (toLowerStr (trimStr role)) "admin" then "Admin" else "Manager"

namespace DatabaseService

/-- The private role normalizer of `DatabaseService.ts`: a cascade of
equality checks, substring checks and a switch with a `"Manager"` default.
The trimmed input `normalizedRole` of the source is written inline as
`trimStr role` (the source computes it once and never mutates it). -/
def normalizeRole (role : String) : String :=
  if toLowerStr (trimStr role) = "admin" ∨ trimStr role = "ADMIN" then "Admin"
  else if toLowerStr (trimStr role) = "manager" ∨ trimStr role = "MANAGER" then "Manager"
  else if strIncludes (toLowerStr (trimStr role)) "admin" then "Admin"
  else if strIncludes (toLowerStr (trimStr role)) "manager" then "Manager"
  else if toLowerStr (trimStr role) = "administrator" ∨ toLowerStr (trimStr role) = "admin_user" ∨
      toLowerStr (trimStr role) = "system_admin" then "Admin"
  else if toLowerStr (trimStr role) = "team_manager" ∨ toLowerStr (trimStr role) = "project_manager" ∨
      toLowerStr (trimStr role) = "manager_user" then "Manager"
  else "Manager"

end DatabaseService
/-- Customer record: the `ZellerCustomer` shape used by the store and the
database layer (`{id, name, email, role}`, all strings). -/
structure ZellerCustomer where
  id : String
  name : String
  email : String
  role : String
  deriving DecidableEq

/-- Input for `addCustomer`: the customer shape without the id field. -/
structure CustomerInput where
  name : String
  email : String
  role : String
  deriving DecidableEq

/-- Model of the store helper `normalizeCustomer`. -/
def normalizeCustomer (c : ZellerCustomer) : ZellerCustomer :=
  { c with role := normalizeRole c.role }

/-- Model of the store helper `normalizeCustomers`. -/
def normalizeCustomers (cs : List ZellerCustomer) : List ZellerCustomer :=
  cs.map normalizeCustomer

/-- Comparison used by `ORDER BY name ASC` under the default SQLite BINARY
collation. -/
def sqliteLeName (a b : ZellerCustomer) : Prop :=
  strLeB a.name b.name = true

instance : DecidableRel sqliteLeName :=
  fun a b => Bool.decEq (strLeB a.name b.name) true

/-- Row ordering produced by `SELECT * FROM customers ORDER BY name ASC`. -/
def sortByName (l : List ZellerCustomer) : List ZellerCustomer :=
  List.insertionSort sqliteLeName l
namespace DatabaseService

/-- State of the SQLite `customers` table: the stored rows plus whether the
CHECK constraint on `role` is still present (`recreateTableWithoutConstraint`
drops it). -/
structure Db where
  table : List ZellerCustomer
  roleConstrained : Bool
  deriving DecidableEq

/-- Model of `DatabaseService.insertCustomer`: normalize the role, then
`INSERT OR REPLACE` by primary key `id`; a row whose role violates the
CHECK constraint is rejected with the SQLite error message. -/
def insertCustomer (db : Db) (c : ZellerCustomer) : Except String Db :=
  if db.roleConstrained ∧
      ¬(normalizeRole c.role = "Admin" ∨ normalizeRole c.role = "Manager") then
    Except.error "CHECK constraint failed: role"
  else
    Except.ok { db with
      table := db.table.filter (fun r => r.id != c.id) ++
        [{ id := c.id, name := c.name, email := c.email, role := normalizeRole c.role }] }

/-- Model of `DatabaseService.getAllCustomers`:
`SELECT * FROM customers ORDER BY name ASC` (BINARY collation), then
normalize the role of each row while reading. -/
def getAllCustomers (db : Db) : List ZellerCustomer :=
  (sortByName db.table).map (fun row => { row with role := normalizeRole row.role })

end DatabaseService

/-- Reactive state of the zustand customer store. -/
structure CustomerState where
  customers : List ZellerCustomer
  filteredCustomers : List ZellerCustomer
  loading : Bool
  error : Option String
  searchTerm : String
  selectedRole : String
  refreshing : Bool
  deriving DecidableEq

/-- Initial store state from `create<CustomerStore>`. -/
def initialState : CustomerState :=
  { customers := [], filteredCustomers := [], loading := false, error := none,
    searchTerm := "", selectedRole := "All", refreshing := false }

/-- Configuration flag of `customerStore.ts` (remote mutation mirroring). -/
def ENABLE_REMOTE_MUTATIONS : Bool := false

/-- Model of `createLocalCustomer`; the generated id
(`Date.now() + random suffix`) is supplied by the environment. -/
def createLocalCustomer (data : CustomerInput) (freshId : String) : ZellerCustomer :=
  { id := freshId, name := data.name, email := data.email, role := data.role }

/-- One I/O call that an engine operation can make, used to record which
collaborators were contacted. -/
inductive CallEvent where
  | remoteFetch
  | remoteCreate
  | remoteUpdate
  | remoteDelete
  | dbTestConn
  | dbTestInsert
  | dbCount
  | dbGetAll
  | dbInsertMany
  | dbRecreate
  | dbInsertOne
  | dbUpdate
  | dbDelete
  deriving DecidableEq

/-- Model of the pure part of the `filterCustomers` action: role filter
(skipped for `"All"`), then case-insensitive trimmed-substring name filter
(skipped when the term trims to empty). -/
def filterCustomers (customers : List ZellerCustomer) (selectedRole searchTerm : String) :
    List ZellerCustomer :=
  let roleFiltered :=
    if selectedRole ≠ "All" then customers.filter (fun c => c.role == selectedRole)
    else customers
  if trimStr searchTerm ≠ "" then
    roleFiltered.filter
      (fun c => strIncludes (toLowerStr c.name) (trimStr (toLowerStr searchTerm)))
  else roleFiltered

/-- Shape of `GraphQLService.fetchAllCustomers()` responses; `items` is
optional because the store guards it with `response.items && ...`. -/
structure FetchResponse where
  items : Option (List ZellerCustomer)

/-- Outcomes of every I/O call that `loadCustomers` can make, in program
order.  Each `Except` is the resolution or rejection of the corresponding
awaited promise. -/
structure LoadEnv where
  connOk : Bool
  testInsert : Except String Unit
  count : Except String Nat
  fetch : Except String FetchResponse
  insertSeed : Except String Unit
  recreate : Except String Unit
  insertRetry : Except String Unit
  verifyGetAll : Except String (List ZellerCustomer)
  localGetAll : Except String (List ZellerCustomer)

/-- The inner insert-with-constraint-fallback of `loadCustomers` seeding:
on a `CHECK constraint failed: role` message, recreate the table and retry
once; any other failure propagates. -/
def seedInsert (env : LoadEnv) : Except String Unit × List CallEvent :=
  match env.insertSeed with
  | Except.ok _ => (Except.ok (), [CallEvent.dbInsertMany])
  | Except.error msg =>
    if strIncludes msg "CHECK constraint failed: role" then
      match env.recreate with
      | Except.error e => (Except.error e, [CallEvent.dbInsertMany, CallEvent.dbRecreate])
      | Except.ok _ =>
        match env.insertRetry with
        | Except.ok _ =>
          (Except.ok (), [CallEvent.dbInsertMany, CallEvent.dbRecreate, CallEvent.dbInsertMany])
        | Except.error e =>
          (Except.error e, [CallEvent.dbInsertMany, CallEvent.dbRecreate, CallEvent.dbInsertMany])
    else (Except.error msg, [CallEvent.dbInsertMany])

/-- The `if (customerCount === 0)` seeding block of `loadCustomers`: its
internal `try/catch` swallows every failure (network, insert, verify) and
leaves the seeded list empty in that case. -/
def seedAttempt (env : LoadEnv) : List ZellerCustomer × List CallEvent :=
  match env.fetch with
  | Except.error _ => ([], [CallEvent.remoteFetch])
  | Except.ok response =>
    match response.items with
    | none => ([], [CallEvent.remoteFetch])
    | some items =>
      if items = [] then ([], [CallEvent.remoteFetch])
      else
        match seedInsert env with
        | (Except.error _, ilog) => ([], CallEvent.remoteFetch :: ilog)
        | (Except.ok _, ilog) =>
          match env.verifyGetAll with
          | Except.error _ => ([], CallEvent.remoteFetch :: ilog ++ [CallEvent.dbGetAll])
          | Except.ok verify => (verify, CallEvent.remoteFetch :: ilog ++ [CallEvent.dbGetAll])

/-- Diagnostic calls at the top of `loadCustomers`: the connection test is
always made; the insert self-test runs only when the connection test
succeeded. -/
def diagLog (env : LoadEnv) : List CallEvent :=
  if env.connOk then [CallEvent.dbTestConn, CallEvent.dbTestInsert]
  else [CallEvent.dbTestConn]

/-- State after the outer catch plus finally of `loadCustomers`. -/
def loadFailState (s : CustomerState) : CustomerState :=
  { s with error := some "Failed to load customers", loading := false }

/-- Publishing step of `loadCustomers`: normalize, store, recompute the
projection, clear the loading flag (the `finally`). -/
def publishCustomers (s : CustomerState) (cs : List ZellerCustomer) : CustomerState :=
  { s with customers := normalizeCustomers cs,
           filteredCustomers :=
             filterCustomers (normalizeCustomers cs) s.selectedRole s.searchTerm,
           loading := false }

/-- Tail of `loadCustomers` after the seeding block produced `seeded`
(seeded customer list plus the calls it made): the
`if (customers.length === 0)` local fallback read and the publish step. -/
def loadPublishStep (s1 : CustomerState) (env : LoadEnv)
    (seeded : List ZellerCustomer × List CallEvent) : CustomerState × List CallEvent :=
  if seeded.1 = [] then
    match env.localGetAll with
    | Except.error _ =>
      (loadFailState s1, diagLog env ++ [CallEvent.dbCount] ++ seeded.2 ++ [CallEvent.dbGetAll])
    | Except.ok localCs =>
      (publishCustomers s1 localCs,
       diagLog env ++ [CallEvent.dbCount] ++ seeded.2 ++ [CallEvent.dbGetAll])
  else (publishCustomers s1 seeded.1, diagLog env ++ [CallEvent.dbCount] ++ seeded.2)

/-- Tail of `loadCustomers` once the local row count is known: seed from
remote only when the count is zero. -/
def loadWithCount (s1 : CustomerState) (env : LoadEnv) (n : Nat) :
    CustomerState × List CallEvent :=
  loadPublishStep s1 env (if n = 0 then seedAttempt env else ([], []))

/-- Model of the `loadCustomers` action: diagnostics, count probe,
count-gated remote seeding, local fallback read, publish; the outer catch
sets `error` and the finally clears `loading` on every path. -/
def loadCustomers (s : CustomerState) (env : LoadEnv) : CustomerState × List CallEvent :=
  match (if env.connOk then env.testInsert else Except.ok ()) with
  | Except.error _ => (loadFailState { s with loading := true, error := none }, diagLog env)
  | Except.ok _ =>
    match env.count with
    | Except.error _ =>
      (loadFailState { s with loading := true, error := none },
       diagLog env ++ [CallEvent.dbCount])
    | Except.ok n => loadWithCount { s with loading := true, error := none } env n

/-- Outcome of the single I/O call `refreshCustomers` makes. -/
structure RefreshEnv where
  getAll : Except String (List ZellerCustomer)

/-- Model of the `refreshCustomers` action: reload from the local database
only; failure sets the refresh error and keeps the previous records. -/
def refreshCustomers (s : CustomerState) (env : RefreshEnv) : CustomerState × List CallEvent :=
  let s1 := { s with refreshing := true, error := none }
  match env.getAll with
  | Except.ok localCs =>
    ({ s1 with customers := normalizeCustomers localCs,
               filteredCustomers :=
                 filterCustomers (normalizeCustomers localCs) s1.selectedRole s1.searchTerm,
               refreshing := false }, [CallEvent.dbGetAll])
  | Except.error _ =>
    ({ s1 with error := some "Failed to refresh customers", refreshing := false },
     [CallEvent.dbGetAll])

/-- Outcomes of the I/O calls `addCustomer` can make. -/
structure AddEnv where
  freshId : String
  remoteCreate : Except String ZellerCustomer
  insert : Except String Unit

/-- Model of the `addCustomer` action.  It returns the final state, the
promise outcome observed by the caller (errors re-raise), and the calls
made. -/
def addCustomer (s : CustomerState) (data : CustomerInput) (env : AddEnv) :
    CustomerState × Except String Unit × List CallEvent :=
  let chosen : ZellerCustomer × List CallEvent :=
    if ENABLE_REMOTE_MUTATIONS then
      match env.remoteCreate with
      | Except.ok c => (c, [CallEvent.remoteCreate])
      | Except.error _ => (createLocalCustomer data env.freshId, [CallEvent.remoteCreate])
    else (createLocalCustomer data env.freshId, [])
  match env.insert with
  | Except.ok _ =>
    let customers := s.customers ++ [normalizeCustomer chosen.1]
    ({ s with customers := customers,
              filteredCustomers := filterCustomers customers s.selectedRole s.searchTerm },
     Except.ok (), chosen.2 ++ [CallEvent.dbInsertOne])
  | Except.error e =>
    ({ s with error := some "Failed to add customer" }, Except.error e,
     chosen.2 ++ [CallEvent.dbInsertOne])

/-- Outcomes of the I/O calls `updateCustomer` can make. -/
structure UpdateEnv where
  remoteUpdate : Except String ZellerCustomer
  update : Except String Unit

/-- Model of the `updateCustomer` action. -/
def updateCustomer (s : CustomerState) (c : ZellerCustomer) (env : UpdateEnv) :
    CustomerState × Except String Unit × List CallEvent :=
  let rlog : List CallEvent :=
    if ENABLE_REMOTE_MUTATIONS then [CallEvent.remoteUpdate] else []
  match env.update with
  | Except.ok _ =>
    let customers :=
      s.customers.map (fun x => if x.id == (normalizeCustomer c).id then normalizeCustomer c else x)
    ({ s with customers := customers,
              filteredCustomers := filterCustomers customers s.selectedRole s.searchTerm },
     Except.ok (), rlog ++ [CallEvent.dbUpdate])
  | Except.error e =>
    ({ s with error := some "Failed to update customer" }, Except.error e,
     rlog ++ [CallEvent.dbUpdate])

/-- Outcomes of the I/O calls `deleteCustomer` can make. -/
structure DeleteEnv where
  remoteDelete : Except String String
  delete : Except String Unit

/-- Model of the `deleteCustomer` action. -/
def deleteCustomer (s : CustomerState) (id : String) (env : DeleteEnv) :
    CustomerState × Except String Unit × List CallEvent :=
  let rlog : List CallEvent :=
    if ENABLE_REMOTE_MUTATIONS then [CallEvent.remoteDelete] else []
  match env.delete with
  | Except.ok _ =>
    let customers := s.customers.filter (fun x => x.id != id)
    ({ s with customers := customers,
              filteredCustomers := filterCustomers customers s.selectedRole s.searchTerm },
     Except.ok (), rlog ++ [CallEvent.dbDelete])
  | Except.error e =>
    ({ s with error := some "Failed to delete customer" }, Except.error e,
     rlog ++ [CallEvent.dbDelete])

/-- Invariant of the data model: every in-memory record carries a canonical
role. -/
def RolesCanonical (cs : List ZellerCustomer) : Prop :=
  ∀ c ∈ cs, c.role = "Admin" ∨ c.role = "Manager"

theorem listLtB_irrefl : ∀ l : List Char, listLtB l l = false := by
  intro l
  induction l with
  | nil => rfl
  | cons c cs ih => simp [listLtB, lt_irrefl, ih]

theorem listLtB_trans : ∀ {a b c : List Char},
    listLtB a b = true → listLtB b c = true → listLtB a c = true := by
  intro a
  induction a with
  | nil =>
    intro b c hab hbc
    cases b with
    | nil => simp [listLtB] at hab
    | cons y ys =>
      cases c with
      | nil => simp [listLtB] at hbc
      | cons z zs => simp [listLtB]
  | cons x xs ih =>
    intro b c hab hbc
    cases b with
    | nil => simp [listLtB] at hab
    | cons y ys =>
      cases c with
      | nil => simp [listLtB] at hbc
      | cons z zs =>
        simp only [listLtB] at hab hbc ⊢
        by_cases hxy : x < y
        · by_cases hyz : y < z
          · simp [lt_trans hxy hyz]
          · by_cases hzy : z < y
            · simp [hyz, hzy] at hbc
            · have hyz2 : y = z := le_antisymm (not_lt.mp hzy) (not_lt.mp hyz)
              subst hyz2
              simp [hxy]
        · by_cases hyx : y < x
          · simp [hxy, hyx] at hab
          · have hxy2 : x = y := le_antisymm (not_lt.mp hyx) (not_lt.mp hxy)
            subst hxy2
            simp only [lt_irrefl, if_false] at hab
            by_cases hxz : x < z
            · simp [hxz]
            · by_cases hzx : z < x
              · simp [lt_irrefl, hzx] at hbc
                exact absurd hbc hxz
              · have hxz2 : x = z := le_antisymm (not_lt.mp hzx) (not_lt.mp hxz)
                subst hxz2
                simp only [lt_irrefl, if_false] at hbc ⊢
                exact ih hab hbc

theorem listLtB_connex : ∀ (a b : List Char),
    listLtB a b = false → listLtB b a = false → a = b := by
  intro a
  induction a with
  | nil =>
    intro b hab _
    cases b with
    | nil => rfl
    | cons y ys => simp [listLtB] at hab
  | cons x xs ih =>
    intro b hab hba
    cases b with
    | nil => simp [listLtB] at hba
    | cons y ys =>
      simp only [listLtB] at hab hba
      by_cases hxy : x < y
      · simp [hxy] at hab
      · by_cases hyx : y < x
        · simp [hxy, hyx] at hba
        · have hxy2 : x = y := le_antisymm (not_lt.mp hyx) (not_lt.mp hxy)
          subst hxy2
          simp only [lt_irrefl, if_false] at hab hba
          rw [ih ys hab hba]

theorem strLeB_iff (a b : String) : strLeB a b = true ↔ listLtB b.data a.data = false := by
  unfold strLeB strLtB
  cases listLtB b.data a.data <;> simp

theorem strLeB_total (a b : String) : strLeB a b = true ∨ strLeB b a = true := by
  simp only [strLeB_iff]
  by_cases h1 : listLtB b.data a.data = true
  · right
    by_cases h2 : listLtB a.data b.data = true
    · have h3 := listLtB_trans h1 h2
      rw [listLtB_irrefl] at h3
      cases h3
    · cases hx : listLtB a.data b.data
      · rfl
      · exact absurd hx h2
  · left
    cases hx : listLtB b.data a.data
    · rfl
    · exact absurd hx h1

theorem strLeB_trans {a b c : String} (h1 : strLeB a b = true) (h2 : strLeB b c = true) :
    strLeB a c = true := by
  rw [strLeB_iff] at h1 h2 ⊢
  by_cases hca : listLtB c.data a.data = true
  · by_cases hab : listLtB a.data b.data = true
    · have hcb := listLtB_trans hca hab
      rw [hcb] at h2
      cases h2
    · have hab2 : listLtB a.data b.data = false := by
        cases hx : listLtB a.data b.data
        · rfl
        · exact absurd hx hab
      have heq : b.data = a.data := listLtB_connex _ _ h1 hab2
      rw [heq, hca] at h2
      cases h2
  · cases hx : listLtB c.data a.data
    · rfl
    · exact absurd hx hca

theorem normalizeRole_mem (s : String) :
    normalizeRole s = "Admin" ∨ normalizeRole s = "Manager" := by
  unfold normalizeRole
  split <;> simp

theorem normalizeRole_eq_admin_iff (s : String) :
    normalizeRole s = "Admin" ↔ strIncludes (toLowerStr (trimStr s)) "admin" = true := by
  unfold normalizeRole
  split <;> rename_i h
  · simp [h]
  · simp only [Bool.not_eq_true] at h
    simp [h]

/-- The DatabaseService cascade agrees with the store-level normalizer on
every input string. -/
theorem dbNormalizeRole_eq_store (role : String) :
    DatabaseService.normalizeRole role = normalizeRole role := by
  unfold DatabaseService.normalizeRole normalizeRole
  generalize trimStr role = v
  by_cases h : strIncludes (toLowerStr v) "admin" = true
  · simp only [h, if_true]
    split_ifs with h1 h2
    · rfl
    · exfalso
      rcases h2 with h2 | h2
      · rw [h2] at h
        exact absurd h (by decide)
      · subst h2
        exact absurd h (by decide)
    · rfl
  · have hf : strIncludes (toLowerStr v) "admin" = false := by
      cases hx : strIncludes (toLowerStr v) "admin"
      · rfl
      · exact absurd hx h
    simp only [hf, Bool.false_eq_true, if_false]
    split_ifs with h1 h2 h4 h5 h6
    · exfalso
      rcases h1 with h1 | h1
      · rw [h1] at hf
        exact absurd hf (by decide)
      · subst h1
        exact absurd hf (by decide)
    · rfl
    · rfl
    · exfalso
      rcases h5 with h5 | h5 | h5 <;> rw [h5] at hf <;> exact absurd hf (by decide)
    · rfl
    · rfl

/-- The DatabaseService normalizer is also total into the canonical set. -/
theorem dbNormalizeRole_mem (s : String) :
    DatabaseService.normalizeRole s = "Admin" ∨ DatabaseService.normalizeRole s = "Manager" := by
  rw [dbNormalizeRole_eq_store]
  exact normalizeRole_mem s

theorem mem_sortByName {a : ZellerCustomer} {l : List ZellerCustomer} :
    a ∈ sortByName l ↔ a ∈ l :=
  (List.perm_insertionSort sqliteLeName l).mem_iff

theorem normalizeCustomers_canonical (cs : List ZellerCustomer) :
    RolesCanonical (normalizeCustomers cs) := by
  intro c hc
  rcases List.mem_map.mp hc with ⟨d, _, hd⟩
  subst hd
  exact normalizeRole_mem d.role

/-- Helper: the seeding block always begins with the remote fetch call,
whatever its outcome. -/
theorem remoteFetch_mem_seedAttempt (env : LoadEnv) :
    CallEvent.remoteFetch ∈ (seedAttempt env).2 := by
  unfold seedAttempt
  rcases env.fetch with e | r
  · simp
  · rcases r with ⟨itemsOpt⟩
    rcases itemsOpt with _ | items
    · simp
    · by_cases hi : items = []
      · simp [hi]
      · rcases hseed : seedInsert env with ⟨res, ilog⟩
        rcases res with e2 | u
        · simp [hi, hseed]
        · rcases env.verifyGetAll with e3 | verify <;> simp [hi, hseed]

/-- C3: `normalizeRole` is a total function into the canonical two-valued
role set; it returns `"Admin"` exactly when the trimmed, lowercased input
contains `"admin"` as a substring, and `"Manager"` otherwise, with the
empty string mapping to `"Manager"`. -/
theorem C3_normalizeRole_total_admin_iff (s : String) :
    (normalizeRole s = "Admin" ∨ normalizeRole s = "Manager") ∧
    (normalizeRole s = "Admin" ↔ strIncludes (toLowerStr (trimStr s)) "admin" = true) ∧
    normalizeRole "" = "Manager" :=
  ⟨normalizeRole_mem s, normalizeRole_eq_admin_iff s, by decide⟩

/-- C10: the store-level role normalizer of `customerStore.ts` and the
private cascade normalizer of `DatabaseService.ts` are extensionally
equal. -/
theorem C10_role_normalizers_agree (role : String) :
    DatabaseService.normalizeRole role = normalizeRole role :=
  dbNormalizeRole_eq_store role

/-- C7: `filterCustomers` equals a single filter over the records with the
role-equality predicate (skipped for selector `"All"`) conjoined with the
case-insensitive trimmed-term name-substring predicate (skipped when the
term trims to empty); consequently it is a sublist of the records, so the
relative order is preserved. -/
theorem C7_filterCustomers_spec (customers : List ZellerCustomer)
    (selectedRole searchTerm : String) :
    filterCustomers customers selectedRole searchTerm =
      customers.filter (fun c =>
        (selectedRole == "All" || c.role == selectedRole) &&
        (trimStr searchTerm == "" ||
          strIncludes (toLowerStr c.name) (trimStr (toLowerStr searchTerm)))) ∧
    (filterCustomers customers selectedRole searchTerm).Sublist customers := by
  have heq : filterCustomers customers selectedRole searchTerm =
      customers.filter (fun c =>
        (selectedRole == "All" || c.role == selectedRole) &&
        (trimStr searchTerm == "" ||
          strIncludes (toLowerStr c.name) (trimStr (toLowerStr searchTerm)))) := by
    unfold filterCustomers
    by_cases hr : selectedRole = "All" <;> by_cases ht : trimStr searchTerm = ""
    · simp [hr, ht]
    · simp [hr, ht, beq_eq_false_iff_ne.mpr ht]
    · simp [hr, ht, beq_eq_false_iff_ne.mpr hr]
    · simp [hr, ht, beq_eq_false_iff_ne.mpr hr, beq_eq_false_iff_ne.mpr ht,
        List.filter_filter, Bool.and_comm]
  exact ⟨heq, heq ▸ List.filter_sublist customers⟩

/-- C9 (amended): `getAllCustomers` returns the rows sorted ascending by
name under the BINARY (case-sensitive) SQLite collation, with the stored
role of every row passed through the DatabaseService normalizer; the output is a
permutation of the normalized table. -/
theorem C9_getAll_sorted_binary_normalized (db : DatabaseService.Db) :
    (DatabaseService.getAllCustomers db).Pairwise (fun a b => strLeB a.name b.name = true) ∧
    (DatabaseService.getAllCustomers db).Perm
      (db.table.map (fun row => { row with role := DatabaseService.normalizeRole row.role })) := by
  constructor
  · haveI : IsTotal ZellerCustomer sqliteLeName := ⟨fun a b => strLeB_total a.name b.name⟩
    haveI : IsTrans ZellerCustomer sqliteLeName := ⟨fun _ _ _ hab hbc => strLeB_trans hab hbc⟩
    have hs : (sortByName db.table).Pairwise sqliteLeName :=
      List.sorted_insertionSort sqliteLeName db.table
    exact List.pairwise_map.mpr (hs.imp fun h => h)
  · exact (List.perm_insertionSort sqliteLeName db.table).map _

/-- C9 (counterexample): the claimed case-insensitive ordering fails: with
rows named `"alice"` and `"Bob"` the code returns `"Bob"` first, because
the codepoint of B is below the codepoint of a in the BINARY collation, while case-insensitive comparison
puts `"alice"` first. -/
theorem C9_counterexample_not_case_insensitive :
    DatabaseService.getAllCustomers
        { table := [{ id := "1", name := "alice", email := "a@x.com", role := "Admin" },
                    { id := "2", name := "Bob", email := "b@x.com", role := "Manager" }],
          roleConstrained := true } =
      [{ id := "2", name := "Bob", email := "b@x.com", role := "Manager" },
       { id := "1", name := "alice", email := "a@x.com", role := "Admin" }] ∧
    ¬ (DatabaseService.getAllCustomers
        { table := [{ id := "1", name := "alice", email := "a@x.com", role := "Admin" },
                    { id := "2", name := "Bob", email := "b@x.com", role := "Manager" }],
          roleConstrained := true }).Pairwise
        (fun a b => strLeB (toLowerStr a.name) (toLowerStr b.name) = true) := by
  constructor
  · decide
  · intro h
    have := List.rel_of_pairwise_cons
      (by
        have heval : DatabaseService.getAllCustomers
            { table := [{ id := "1", name := "alice", email := "a@x.com", role := "Admin" },
                        { id := "2", name := "Bob", email := "b@x.com", role := "Manager" }],
              roleConstrained := true } =
            [{ id := "2", name := "Bob", email := "b@x.com", role := "Manager" },
             { id := "1", name := "alice", email := "a@x.com", role := "Admin" }] := by decide
        rw [heval] at h
        exact h)
      (List.mem_singleton.mpr rfl)
    exact absurd this (by decide)

/-- C8: inserting a customer whose raw role string contains `"admin"`
(after trimming and lowercasing, e.g. `"ADMINISTRATOR"`) succeeds and a
subsequent `getAllCustomers` read returns the same record with the
canonical role `"Admin"`. -/
theorem C8_roundtrip_normalizes_role (db : DatabaseService.Db) (c : ZellerCustomer)
    (h : strIncludes (toLowerStr (trimStr c.role)) "admin" = true) :
    ∃ db2, DatabaseService.insertCustomer db c = Except.ok db2 ∧
      ({ id := c.id, name := c.name, email := c.email, role := "Admin" } : ZellerCustomer)
        ∈ DatabaseService.getAllCustomers db2 := by
  have hA : DatabaseService.normalizeRole c.role = "Admin" := by
    rw [dbNormalizeRole_eq_store]
    exact (normalizeRole_eq_admin_iff c.role).mpr h
  have hins : DatabaseService.insertCustomer db c = Except.ok { db with table := db.table.filter (fun r => r.id != c.id) ++ [{ id := c.id, name := c.name, email := c.email, role := DatabaseService.normalizeRole c.role }] } := by
    unfold DatabaseService.insertCustomer
    rw [if_neg (fun hcon => hcon.2 (Or.inl hA))]
  refine ⟨_, hins, ?_⟩
  unfold DatabaseService.getAllCustomers
  refine List.mem_map.mpr ⟨{ id := c.id, name := c.name, email := c.email, role := DatabaseService.normalizeRole c.role }, ?_, ?_⟩
  · rw [mem_sortByName]
    exact List.mem_append_right _ (List.mem_singleton.mpr rfl)
  · rw [hA]
    rw [show DatabaseService.normalizeRole "Admin" = "Admin" from by decide]

/-- Witness for C8 at the concrete role string `"ADMINISTRATOR"`. -/
theorem C8_witness :
    strIncludes (toLowerStr (trimStr "ADMINISTRATOR")) "admin" = true ∧
    ∃ db2, DatabaseService.insertCustomer { table := [], roleConstrained := true }
        { id := "1", name := "Ann", email := "ann@x.com", role := "ADMINISTRATOR" } =
        Except.ok db2 ∧
      ({ id := "1", name := "Ann", email := "ann@x.com", role := "Admin" } : ZellerCustomer)
        ∈ DatabaseService.getAllCustomers db2 :=
  ⟨by decide, C8_roundtrip_normalizes_role _ _ (by decide)⟩

/-- C2: `refreshCustomers` reads from the local store only (its complete
call trace is one `getAll`), ends with `refreshing = false` on every exit
path, republishes records and projection from the local read on success,
and on failure sets `lastError` to the refresh message while leaving the
prior records and projection untouched. -/
theorem C2_refresh_local_only (s : CustomerState) (env : RefreshEnv) :
    (refreshCustomers s env).2 = [CallEvent.dbGetAll] ∧
    (refreshCustomers s env).1.refreshing = false ∧
    (∀ l, env.getAll = Except.ok l →
      (refreshCustomers s env).1.customers = normalizeCustomers l ∧
      (refreshCustomers s env).1.filteredCustomers =
        filterCustomers (normalizeCustomers l) s.selectedRole s.searchTerm ∧
      (refreshCustomers s env).1.error = none) ∧
    (∀ e, env.getAll = Except.error e →
      (refreshCustomers s env).1.error = some "Failed to refresh customers" ∧
      (refreshCustomers s env).1.customers = s.customers ∧
      (refreshCustomers s env).1.filteredCustomers = s.filteredCustomers) := by
  rcases hg : env.getAll with e | l <;> simp [refreshCustomers, hg]

/-- Witness for C2 on the failing local read. -/
theorem C2_witness :
    (refreshCustomers initialState ⟨Except.error "disk"⟩).1.error =
      some "Failed to refresh customers" ∧
    (refreshCustomers initialState ⟨Except.error "disk"⟩).1.customers =
      initialState.customers ∧
    (refreshCustomers initialState ⟨Except.error "disk"⟩).1.filteredCustomers =
      initialState.filteredCustomers :=
  (C2_refresh_local_only initialState ⟨Except.error "disk"⟩).2.2.2 "disk" rfl

/-- C6: when the local insert of `addCustomer` fails, the store records
`lastError = "Failed to add customer"`, the promise rejects with the same
error for the caller, and the in-memory records are unchanged. -/
theorem C6_addCustomer_failure (s : CustomerState) (data : CustomerInput) (env : AddEnv)
    (e : String) (hi : env.insert = Except.error e) :
    (addCustomer s data env).1.error = some "Failed to add customer" ∧
    (addCustomer s data env).2.1 = Except.error e ∧
    (addCustomer s data env).1.customers = s.customers ∧
    (addCustomer s data env).1.filteredCustomers = s.filteredCustomers := by
  simp [addCustomer, hi, ENABLE_REMOTE_MUTATIONS]

/-- Witness for C6 on a concrete failing insert. -/
theorem C6_witness :
    (addCustomer initialState ⟨"New User", "new@example.com", "Manager"⟩
        ⟨"id1", Except.error "off", Except.error "DB error"⟩).1.error =
      some "Failed to add customer" ∧
    (addCustomer initialState ⟨"New User", "new@example.com", "Manager"⟩
        ⟨"id1", Except.error "off", Except.error "DB error"⟩).2.1 =
      Except.error "DB error" ∧
    (addCustomer initialState ⟨"New User", "new@example.com", "Manager"⟩
        ⟨"id1", Except.error "off", Except.error "DB error"⟩).1.customers =
      initialState.customers ∧
    (addCustomer initialState ⟨"New User", "new@example.com", "Manager"⟩
        ⟨"id1", Except.error "off", Except.error "DB error"⟩).1.filteredCustomers =
      initialState.filteredCustomers :=
  C6_addCustomer_failure initialState ⟨"New User", "new@example.com", "Manager"⟩
    ⟨"id1", Except.error "off", Except.error "DB error"⟩ "DB error" rfl

/-- C5: with an empty local store (count zero, so the table reads back
empty) and a rejecting remote fetch, `loadCustomers` finishes with an
empty record set, no user-visible error, and the loading flag cleared. -/
theorem C5_load_silent_seed_failure (s : CustomerState) (env : LoadEnv) (e : String)
    (hti : env.connOk = true → env.testInsert = Except.ok ())
    (hc : env.count = Except.ok 0)
    (hf : env.fetch = Except.error e)
    (hl : env.localGetAll = Except.ok []) :
    (loadCustomers s env).1.customers = [] ∧
    (loadCustomers s env).1.error = none ∧
    (loadCustomers s env).1.loading = false := by
  have h1 : (if env.connOk then env.testInsert else Except.ok ()) = Except.ok () := by
    cases hcon : env.connOk
    · rfl
    · rw [if_pos rfl]
      exact hti hcon
  have hseed : seedAttempt env = ([], [CallEvent.remoteFetch]) := by
    unfold seedAttempt
    rw [hf]
  unfold loadCustomers
  simp only [h1, hc]
  unfold loadWithCount
  rw [if_pos rfl, hseed]
  unfold loadPublishStep
  rw [if_pos rfl, hl]
  exact ⟨rfl, rfl, rfl⟩

/-- Witness for C5 on a concrete empty store with a network failure. -/
theorem C5_witness :
    (loadCustomers initialState ⟨false, Except.ok (), Except.ok 0, Except.error "network", Except.ok (), Except.ok (), Except.ok (), Except.ok [], Except.ok []⟩).1.customers = [] ∧
    (loadCustomers initialState ⟨false, Except.ok (), Except.ok 0, Except.error "network", Except.ok (), Except.ok (), Except.ok (), Except.ok [], Except.ok []⟩).1.error = none ∧
    (loadCustomers initialState ⟨false, Except.ok (), Except.ok 0, Except.error "network", Except.ok (), Except.ok (), Except.ok (), Except.ok [], Except.ok []⟩).1.loading = false :=
  C5_load_silent_seed_failure initialState _ "network" (fun h => absurd h (by decide)) rfl rfl rfl

/-- C1: `loadCustomers` contacts the remote source exactly when the local
row count is zero: with a nonzero count no remote fetch appears in the
call trace and the records are the normalized local rows; with a zero
count the remote fetch call is attempted. -/
theorem C1_load_remote_fetch_only_when_empty (s : CustomerState) (env : LoadEnv)
    (n : Nat) (l : List ZellerCustomer)
    (hti : env.connOk = true → env.testInsert = Except.ok ())
    (hc : env.count = Except.ok n)
    (hl : env.localGetAll = Except.ok l) :
    (n ≠ 0 →
      CallEvent.remoteFetch ∉ (loadCustomers s env).2 ∧
      (loadCustomers s env).1.customers = normalizeCustomers l) ∧
    (n = 0 → CallEvent.remoteFetch ∈ (loadCustomers s env).2) := by
  have h1 : (if env.connOk then env.testInsert else Except.ok ()) = Except.ok () := by
    cases hcon : env.connOk
    · rfl
    · rw [if_pos rfl]
      exact hti hcon
  have hdiag : CallEvent.remoteFetch ∉ diagLog env := by
    unfold diagLog
    cases env.connOk <;> simp
  constructor
  · intro hn
    unfold loadCustomers
    simp only [h1, hc]
    unfold loadWithCount
    rw [if_neg hn]
    unfold loadPublishStep
    rw [if_pos rfl, hl]
    refine ⟨?_, rfl⟩
    intro hmem
    rcases List.mem_append.mp hmem with hmem2 | hmem2
    · rcases List.mem_append.mp hmem2 with hmem3 | hmem3
      · rcases List.mem_append.mp hmem3 with hmem4 | hmem4
        · exact hdiag hmem4
        · simp at hmem4
      · simp at hmem3
    · simp at hmem2
  · intro hn
    subst hn
    unfold loadCustomers
    simp only [h1, hc]
    unfold loadWithCount
    rw [if_pos rfl]
    unfold loadPublishStep
    split
    · cases env.localGetAll <;>
        exact List.mem_append_left _
          (List.mem_append_right _ (remoteFetch_mem_seedAttempt env))
    · exact List.mem_append_right _ (remoteFetch_mem_seedAttempt env)

/-- Witness for C1 on a concrete store with three local rows. -/
theorem C1_witness :
    CallEvent.remoteFetch ∉ (loadCustomers initialState ⟨false, Except.ok (), Except.ok 3, Except.error "net", Except.ok (), Except.ok (), Except.ok (), Except.ok [], Except.ok [⟨"9", "John", "j@x.com", "Admin"⟩]⟩).2 ∧
    (loadCustomers initialState ⟨false, Except.ok (), Except.ok 3, Except.error "net", Except.ok (), Except.ok (), Except.ok (), Except.ok [], Except.ok [⟨"9", "John", "j@x.com", "Admin"⟩]⟩).1.customers =
      normalizeCustomers [⟨"9", "John", "j@x.com", "Admin"⟩] :=
  (C1_load_remote_fetch_only_when_empty initialState _ 3 _
    (fun h => absurd h (by decide)) rfl rfl).1 (by decide)

/-- C4: every engine operation keeps the invariant that all in-memory
records carry a canonical role, starting from the empty initial record
set, whatever role strings arrive from the remote source or stored rows. -/
theorem C4_canonical_roles_invariant :
    RolesCanonical ([] : List ZellerCustomer) ∧
    (∀ s env, RolesCanonical s.customers →
      RolesCanonical (loadCustomers s env).1.customers) ∧
    (∀ s env, RolesCanonical s.customers →
      RolesCanonical (refreshCustomers s env).1.customers) ∧
    (∀ s data env, RolesCanonical s.customers →
      RolesCanonical (addCustomer s data env).1.customers) ∧
    (∀ s c env, RolesCanonical s.customers →
      RolesCanonical (updateCustomer s c env).1.customers) ∧
    (∀ s id env, RolesCanonical s.customers →
      RolesCanonical (deleteCustomer s id env).1.customers) := by
  refine ⟨?_, ?_, ?_, ?_, ?_, ?_⟩
  · intro c hc
    exact absurd hc (List.not_mem_nil c)
  · intro s env h
    unfold loadCustomers
    cases (if env.connOk then env.testInsert else Except.ok ()) with
    | error e => exact h
    | ok u =>
      cases env.count with
      | error e => exact h
      | ok n =>
        dsimp only
        unfold loadWithCount loadPublishStep
        by_cases hs : (if n = 0 then seedAttempt env else ([], [])).1 = []
        · rw [if_pos hs]
          cases env.localGetAll with
          | error e => exact h
          | ok localCs => exact normalizeCustomers_canonical localCs
        · rw [if_neg hs]
          exact normalizeCustomers_canonical _
  · intro s env h
    unfold refreshCustomers
    cases env.getAll with
    | error e => exact h
    | ok localCs => exact normalizeCustomers_canonical localCs
  · intro s data env h
    unfold addCustomer
    cases env.insert with
    | error e => exact h
    | ok u =>
      intro c hc
      rcases List.mem_append.mp hc with hmem | hmem
      · exact h c hmem
      · rw [List.mem_singleton.mp hmem]
        exact normalizeRole_mem _
  · intro s c env h
    unfold updateCustomer
    cases env.update with
    | error e => exact h
    | ok u =>
      intro x hx
      rcases List.mem_map.mp hx with ⟨y, hymem, hyeq⟩
      subst hyeq
      by_cases hid : (y.id == (normalizeCustomer c).id) = true
      · rw [if_pos hid]
        exact normalizeRole_mem _
      · rw [if_neg hid]
        exact h y hymem
  · intro s id env h
    unfold deleteCustomer
    cases env.delete with
    | error e => exact h
    | ok u =>
      intro x hx
      exact h x (List.mem_of_mem_filter hx)

/-- Witness for C4: the add operation applied to the empty initial state
with a non-canonical incoming role keeps the invariant. -/
theorem C4_witness :
    RolesCanonical initialState.customers ∧
    RolesCanonical ((addCustomer initialState ⟨"New User", "new@example.com", "boss"⟩
      ⟨"id1", Except.error "off", Except.ok ()⟩).1.customers) :=
  ⟨fun c hc => absurd hc (List.not_mem_nil c),
   C4_canonical_roles_invariant.2.2.2.1 initialState
     ⟨"New User", "new@example.com", "boss"⟩ ⟨"id1", Except.error "off", Except.ok ()⟩
     (fun c hc => absurd hc (List.not_mem_nil c))⟩
